import Mathlib

/-!
Verification of the dependency-fetch scripts.

Shallow embedding of `build/fetch_dependencies.py` and `build/dependency_map.py`.

The scripts orchestrate two external effects: spawning `git` subprocesses and
downloading/extracting archives.  The embedding makes those effects explicit:

* every spawned VCS command is recorded in a trace of `GitCmd` values holding the
  exact argv list and working directory the script passes to `subprocess.Popen`;
  the exit code each command *would* produce is supplied by an oracle (`GitEnv`);
* every archive-fetch step (directory creation, skip checks, `urlretrieve`,
  extraction, file removal) is recorded in a trace of `DlEvent` values, over a
  per-URL filesystem abstraction (`UrlFS`) driven by an oracle (`UrlEnv`) that
  decides whether each `urlretrieve` call succeeds or raises
  `ContentTooShortError`, and whether extraction happens to create a directory
  named after the archive's stem.

Python dictionaries are modelled as ordered association lists (Python dicts
preserve insertion order); the scripts never write to the manifest dicts, and the
embedding threads the dict through the loops as explicit state so that its
preservation is a provable statement rather than a typing accident.

Path resolution (`os.path.join(script_root, ...)` / `os.path.normpath`) is not
modelled: destination strings are used as paths verbatim.  No claim depends on
path resolution.  Console output (`log_print`) is not modelled.
-/

namespace FetchDeps

/-! ## String helpers mirroring the Python name derivations

All the separators the script splits on (`'/'`, `'#'`, `'?'`, `'.'`) are single
characters, so Python's `str.split(sep)` is modelled by a structural split on
character lists (every occurrence splits, adjacent separators produce empty
pieces, the empty string splits to `[""]` — exactly `str.split`'s semantics for
a nonempty separator). -/

/-- Python `s.split(sep)` for a single-character separator, on `s.data`. -/
def splitOnChar (sep : Char) : List Char → List (List Char)
  | [] => [[]]
  | c :: rest =>
    let r := splitOnChar sep rest
    if c = sep then [] :: r
    else (c :: r.headD []) :: r.tail

/-- Python `url.split('/')[-1].split('#')[0].split('?')[0]`
(fetch_dependencies.py line 75): the archive file name derived from the URL's
final path segment with any fragment/query suffix stripped. -/
def zipFileName (url : String) : String :=
  String.mk
    ((splitOnChar '?'
      ((splitOnChar '#' ((splitOnChar '/' url.data).getLastD [])).headD [])).headD [])

/-- Python `zip_file_name.split(".")[0]` (lines 79-80): the archive's base name
(stem), used to build the folder name checked by the skip heuristic. -/
def stemOf (name : String) : String :=
  String.mk ((splitOnChar '.' name.data).headD [])

/-- Python `os.path.splitext(zip_path)[1]` (line 101), computed on the archive file
name.  The Python function only inspects the part after the last path
separator, and `zip_file_name` contains no separator, so computing on the file
name is equivalent.  Mirrors the CPython rule that a name whose characters
before the last dot are all dots (a leading-dot hidden file) has no
extension. -/
def extOf (name : String) : String :=
  let parts := splitOnChar '.' name.data
  if parts.length ≤ 1 then ""
  else if parts.dropLast.all (fun s => s = ([] : List Char)) then ""
  else "." ++ String.mk (parts.getLastD [])

/-! ## Archive fetch model (`download_url_dependencies`, lines 58-113) -/

/-- Result of one `urllib.request.urlretrieve` call: either it completes, or it
raises `ContentTooShortError` (the only exception the script handles). -/
inductive DlOutcome where
  | ok
  | tooShort
  deriving DecidableEq, Repr

/-- The modelled Python exception. -/
inductive PyErr where
  | contentTooShort
  deriving DecidableEq, Repr

/-- Model of `urllib.request.urlretrieve(url, zip_path)` (line 92), abstracted by the
outcome the network oracle assigns to this attempt. -/
def urlretrieve (o : DlOutcome) : Except PyErr Unit :=
  match o with
  | .ok => .ok ()
  | .tooShort => .error .contentTooShort

/-- Environment oracle for one URL: the outcome of its `n`-th `urlretrieve`
attempt, and whether extracting the archive creates a directory named after the
archive stem at the destination. -/
structure UrlEnv where
  outcome : Nat → DlOutcome
  extractMakesStemDir : Bool

/-- Filesystem state relevant to one URL entry: whether the destination
directory exists, whether the archive file (`zip_path`) exists, whether a
directory named after the archive stem (`zip_file_path`) exists, plus the
count of `urlretrieve` attempts made so far (oracle bookkeeping). -/
structure UrlFS where
  dirExists : Bool
  fileExists : Bool
  stemDirExists : Bool
  attemptIdx : Nat
  deriving DecidableEq, Repr

/-- Filesystem abstraction: per-URL state, keyed by the URL. -/
abbrev FSMap : Type := String → UrlFS

/-- Point update of the filesystem abstraction. -/
def setFS (fs : FSMap) (u : String) (st : UrlFS) : FSMap :=
  fun x => if x = u then st else fs x

/-- Observable steps of the archive fetcher. -/
inductive DlEvent where
  | makedirs (path : String)
  | skipFile (path : String)
  | skipDir (path : String)
  | download (url : String) (path : String)
  | removeFile (path : String)
  | extractZip (path : String) (dest : String)
  | extractTar (path : String) (dest : String)
  deriving DecidableEq, Repr

/-- An archive manifest: URL → destination path, in declaration order. -/
abbrev UrlMap : Type := List (String × String)

/-- One execution of the `for url in url_mapping` loop of
`download_url_dependencies` (lines 59-113).  `remaining` is the unprocessed
suffix of the iteration; `dict` is the dictionary object being iterated,
threaded through as state (the loop never writes to it).  Returns the
dictionary, the filesystem state, the event trace, and whether the pass was
aborted by the `ContentTooShortError` handler's `return` (lines 93-98) —
in which case the remaining entries of this pass are abandoned and the caller
(`dlLoop`) performs the recursive retry exactly when the budget is positive,
mirroring lines 95-98. -/
def dlPass (remaining : UrlMap) (dict : UrlMap) (uenv : String → UrlEnv) (fs : FSMap) :
    UrlMap × FSMap × List DlEvent × Bool :=
  match remaining with
  | [] => (dict, fs, [], false)
  | (url, target_path) :: rest =>
    let st0 := fs url
    -- lines 69-70: make target directory if it doesn't exist
    let mkEv : List DlEvent := if st0.dirExists then [] else [.makedirs target_path]
    let st1 : UrlFS := { st0 with dirExists := true }
    let fs1 := setFS fs url st1
    let zip_file_name := zipFileName url
    let zip_path := target_path ++ "/" ++ zip_file_name
    let zip_file_path := target_path ++ "/" ++ stemOf zip_file_name
    if st1.fileExists then
      -- lines 82-84: archive file already present, skip
      let r := dlPass rest dict uenv fs1
      (r.1, r.2.1, (mkEv ++ [.skipFile zip_path]) ++ r.2.2.1, r.2.2.2)
    else if st1.stemDirExists then
      -- lines 85-87: folder named after the archive exists, skip
      let r := dlPass rest dict uenv fs1
      (r.1, r.2.1, (mkEv ++ [.skipDir zip_file_path]) ++ r.2.2.1, r.2.2.2)
    else
      -- lines 90-98: download, catching ContentTooShortError
      match urlretrieve ((uenv url).outcome st1.attemptIdx) with
      | .error .contentTooShort =>
        -- line 94: os.remove(zip_path) (the partial file); then return
        let st2 : UrlFS := { st1 with attemptIdx := st1.attemptIdx + 1 }
        let fs2 := setFS fs url st2
        (dict, fs2, mkEv ++ [.download url zip_path, .removeFile zip_path], true)
      | .ok _ =>
        -- lines 100-113: extension dispatch
        let extension := extOf zip_file_name
        if extension = ".zip" then
          let st3 : UrlFS :=
            { st1 with
              attemptIdx := st1.attemptIdx + 1
              fileExists := false
              stemDirExists := st1.stemDirExists || (uenv url).extractMakesStemDir }
          let r := dlPass rest dict uenv (setFS fs url st3)
          (r.1, r.2.1,
            (mkEv ++ [.download url zip_path, .extractZip zip_path target_path,
                      .removeFile zip_path]) ++ r.2.2.1, r.2.2.2)
        else if extension = ".tgz" ∨ extension = ".gz" then
          let st3 : UrlFS :=
            { st1 with
              attemptIdx := st1.attemptIdx + 1
              fileExists := false
              stemDirExists := st1.stemDirExists || (uenv url).extractMakesStemDir }
          let r := dlPass rest dict uenv (setFS fs url st3)
          (r.1, r.2.1,
            (mkEv ++ [.download url zip_path, .extractTar zip_path target_path,
                      .removeFile zip_path]) ++ r.2.2.1, r.2.2.2)
        else
          -- no matching extension: the downloaded file is left in place
          let st4 : UrlFS := { st1 with attemptIdx := st1.attemptIdx + 1, fileExists := true }
          let r := dlPass rest dict uenv (setFS fs url st4)
          (r.1, r.2.1, (mkEv ++ [.download url zip_path]) ++ r.2.2.1, r.2.2.2)

/-- Model of `download_url_dependencies(url_mapping, update, retry_count)` (lines
58-113), as the retry driver over `dlPass`: when a pass is aborted by the
`ContentTooShortError` handler, the function re-invokes itself on the whole
mapping with a decremented budget if `retry_count > 0` (lines 95-97) and
returns either way (line 98); the outcome of the recursive invocation is
discarded.  Structural recursion on the budget. -/
def dlLoop : Nat → UrlMap → (String → UrlEnv) → FSMap → UrlMap × FSMap × List DlEvent
  | rc, url_mapping, uenv, fs =>
    let p := dlPass url_mapping url_mapping uenv fs
    if p.2.2.2 then
      match rc with
      | Nat.succ n =>
        let r := dlLoop n p.1 uenv p.2.1
        (r.1, r.2.1, p.2.2.1 ++ r.2.2)
      | 0 => (p.1, p.2.1, p.2.2.1)
    else (p.1, p.2.1, p.2.2.1)

/-- Default retry budget (`retry_count = 10`, line 58). -/
def kDefaultRetries : Nat := 10

/-- Model of `download_url_dependencies(url_mapping, update, retry_count)` (line 58).
The `update` parameter is accepted and unused, matching the source (its use is
a TODO there, line 66). -/
def download_url_dependencies (url_mapping : UrlMap) (_update : Bool) (retry_count : Nat)
    (uenv : String → UrlEnv) (fs : FSMap) : UrlMap × FSMap × List DlEvent :=
  dlLoop retry_count url_mapping uenv fs

/-! ## Git synchronizer model (`update_git_dependencies`, lines 116-170) -/

/-- The value tuple of one `git_mapping` entry: a list
`[destination, commit, shallow]` indexed by `kDestinationIndex = 0`,
`kCommitIndex = 1`, `kShallowCloneIndex = 2` (lines 26-28 and
dependency_map.py lines 24-33), modelled with named fields. -/
structure GitVal where
  dest : String
  commit : String
  shallow : Bool
  deriving DecidableEq, Repr

/-- Environment oracle for one git entry: whether the destination directory
exists (`os.path.isdir(path)`, line 129) and the exit code each git subprocess
would report (`p.returncode` after `p.wait()`). -/
structure GitEnv where
  dirExists : Bool
  cloneRet : Int
  fetchRet : Int
  checkoutRet : Int
  pullRet : Int
  deriving DecidableEq, Repr

/-- One spawned git command: the argv list passed to `subprocess.Popen` and the
working directory (`cwd=path`), `none` when no `cwd` is given. -/
structure GitCmd where
  argv : List String
  cwd : Option String
  deriving DecidableEq, Repr

/-- A git manifest: repository URL → value tuple, in declaration order. -/
abbrev GitMap : Type := List (String × GitVal)

/-- The body of the `for git_repo in git_mapping` loop (lines 117-168) for one
entry: the commands spawned for this entry and `false` iff the entry hit a
`return False` (a non-zero exit code from clone, fetch, checkout or pull).
`env.dirExists = false` takes the clone branch (lines 129-141);
`dirExists ∧ update` the fetch branch (lines 142-151); otherwise the entry is
skipped (lines 152-154).  A successful clone or fetch sets `do_checkout`,
which runs checkout then a fast-forward pull (lines 156-168). -/
def processGitEntry (git_repo : String) (v : GitVal) (env : GitEnv) (update : Bool) :
    List GitCmd × Bool :=
  -- line 119-122: path = os.path.normpath(os.path.join(script_root, dest));
  -- path resolution is not modelled, the destination string is the path.
  let path := v.dest
  let reqd_commit := v.commit
  let branch : List GitCmd × Bool × Bool :=
    if env.dirExists = false then
      let c : GitCmd :=
        if v.shallow then
          ⟨["git", "clone", "--depth", "1", "--branch", reqd_commit, git_repo, path], none⟩
        else
          ⟨["git", "clone", git_repo, path], none⟩
      if env.cloneRet = 0 then ([c], true, false) else ([c], false, true)
    else if update then
      let f : GitCmd := ⟨["git", "fetch", "--tags", "-f"], some path⟩
      if env.fetchRet = 0 then ([f], true, false) else ([f], false, true)
    else
      ([], false, false)
  let pre := branch.1
  let do_checkout := branch.2.1
  let failed := branch.2.2
  if failed then (pre, false)
  else if do_checkout then
    let co : GitCmd := ⟨["git", "checkout", reqd_commit], some path⟩
    if env.checkoutRet = 0 then
      let pu : GitCmd := ⟨["git", "pull", "--ff-only", "origin", reqd_commit], some path⟩
      if env.pullRet = 0 then (pre ++ [co, pu], true) else (pre ++ [co, pu], false)
    else (pre ++ [co], false)
  else (pre, true)

/-- The `for git_repo in git_mapping` loop (lines 117-168): entries processed
in order; the first failing entry makes the whole function `return False`
immediately, abandoning all later entries; the final `return True` is reached
only when every entry succeeded (line 170).  The dictionary being iterated is
threaded through as state (the loop never writes to it). -/
def gitLoop (remaining : GitMap) (dict : GitMap) (genv : String → GitEnv) (update : Bool) :
    GitMap × List GitCmd × Bool :=
  match remaining with
  | [] => (dict, [], true)
  | (git_repo, v) :: rest =>
    let e := processGitEntry git_repo v (genv git_repo) update
    if e.2 then
      let r := gitLoop rest dict genv update
      (r.1, e.1 ++ r.2.1, r.2.2)
    else (dict, e.1, false)

/-- Model of `update_git_dependencies(git_mapping, update)` (line 116). -/
def update_git_dependencies (git_mapping : GitMap) (genv : String → GitEnv) (update : Bool) :
    GitMap × List GitCmd × Bool :=
  gitLoop git_mapping git_mapping genv update

/-! ## Driver (`do_fetch_dependencies`, lines 173-187) -/

/-- The value of `sys.platform` as the driver tests it (lines 181-183). -/
inductive Platform where
  | win32
  | linux
  | other
  deriving DecidableEq, Repr

/-- Model of `do_fetch_dependencies(update)` (lines 173-187): print the git version
(`git --version`, recorded as the first command; a missing git client would
raise before any synchronization, which is not modelled), then update all git
dependencies; only if that returns `True` are the platform's archive
dependencies downloaded (the download's outcome is not consulted) and `True`
returned; otherwise `False` is returned and no download is attempted.
Returns (git command trace, archive-fetch run when one happened, result). -/
def do_fetch_dependencies (plat : Platform) (git_mapping : GitMap) (genv : String → GitEnv)
    (update : Bool) (url_mapping_win url_mapping_linux : UrlMap)
    (uenv : String → UrlEnv) (fs : FSMap) :
    List GitCmd × Option (UrlMap × FSMap × List DlEvent) × Bool :=
  let versionCmd : GitCmd := ⟨["git", "--version"], none⟩
  let g := update_git_dependencies git_mapping genv update
  if g.2.2 then
    match plat with
    | .win32 =>
      (versionCmd :: g.2.1,
       some (download_url_dependencies url_mapping_win update kDefaultRetries uenv fs), true)
    | .linux =>
      (versionCmd :: g.2.1,
       some (download_url_dependencies url_mapping_linux update kDefaultRetries uenv fs), true)
    | .other => (versionCmd :: g.2.1, none, true)
  else (versionCmd :: g.2.1, none, false)

/-! ## The manifest (`dependency_map.py`) -/

/-- dependency_map.py line 18. -/
def github_tools : String := "https://github.com/GPUOpen-Tools/"

/-- dependency_map.py line 19. -/
def github_root : String := "https://github.com/"

/-- dependency_map.py lines 24-33: the git dependency manifest. -/
def git_mapping : GitMap :=
  [(github_tools ++ "qt_common", ⟨"../external/qt_common", "v4.1.0", true⟩),
   (github_tools ++ "update_check_api", ⟨"../external/update_check_api", "v2.1.1", true⟩),
   (github_tools ++ "system_info_utils", ⟨"../external/system_info_utils", "v2.0", true⟩),
   (github_root ++ "g-truc/glm", ⟨"../external/third_party/glm", "0.9.9.8", true⟩),
   (github_root ++ "KhronosGroup/Vulkan-Headers",
      ⟨"../external/third_party/vulkan", "sdk-1.3.211", true⟩),
   (github_root ++ "zeux/volk", ⟨"../external/third_party/volk", "1.2.190", true⟩),
   (github_root ++ "GPUOpen-LibrariesAndSDKs/VulkanMemoryAllocator",
      ⟨"../external/vma", "d2f0313d20c803f83cc3637ac1facf8e4d6899e4", false⟩),
   (github_root ++ "GPUOpen-Drivers/libamdrdf", ⟨"../external/rdf", "v1.4.0", true⟩)]

/-- dependency_map.py lines 36-38: downloads required for Windows builds. -/
def url_mapping_win : UrlMap :=
  [("https://github.com/microsoft/DirectXShaderCompiler/releases/download/v1.7.2308/dxc_2023_08_14.zip",
    "../external/third_party/dxc")]

/-- dependency_map.py lines 41-43: downloads required for Linux builds. -/
def url_mapping_linux : UrlMap :=
  [("https://github.com/microsoft/DirectXShaderCompiler/releases/download/v1.7.2308/linux_dxc_2023_08_14.x86_64.tar.gz",
    "../external/third_party/dxc")]

/-! ## Observables: counting events and commands -/

/-- Whether an event is a network download call (`urlretrieve`). -/
def isDownloadEv : DlEvent → Bool
  | .download _ _ => true
  | _ => false

/-- Number of `urlretrieve` calls in a trace. -/
def countDl (t : List DlEvent) : Nat := (t.filter isDownloadEv).length

/-- Whether a command is a `git clone`. -/
def isCloneCmd (c : GitCmd) : Bool := c.argv.take 2 == ["git", "clone"]

/-- Whether a command is a `git checkout`. -/
def isCheckoutCmd (c : GitCmd) : Bool := c.argv.take 2 == ["git", "checkout"]

/-- Number of commands in a trace satisfying `p`. -/
def countCmd (p : GitCmd → Bool) (t : List GitCmd) : Nat := (t.filter p).length

/-! ## Helper lemmas -/

theorem setFS_same (fs : FSMap) (u : String) (st : UrlFS) : setFS fs u st u = st := by
  simp [setFS]

theorem setFS_setFS (fs : FSMap) (u : String) (a b : UrlFS) :
    setFS (setFS fs u a) u b = setFS fs u b := by
  funext x
  by_cases h : x = u <;> simp [setFS, h]

theorem countDl_append (a b : List DlEvent) : countDl (a ++ b) = countDl a + countDl b := by
  simp [countDl, List.filter_append]

theorem countCmd_cons (p : GitCmd → Bool) (c : GitCmd) (t : List GitCmd) :
    countCmd p (c :: t) = (if p c then 1 else 0) + countCmd p t := by
  simp [countCmd, List.filter_cons]
  split <;> simp [Nat.add_comm]

/-- The git loop never writes to the dictionary it iterates. -/
theorem gitLoop_dict (remaining dict : GitMap) (genv : String → GitEnv) (update : Bool) :
    (gitLoop remaining dict genv update).1 = dict := by
  induction remaining with
  | nil => rfl
  | cons e rest ih =>
    obtain ⟨k, v⟩ := e
    rw [gitLoop]
    dsimp only
    split
    · simpa using ih
    · rfl

/-- One pass of the archive loop never writes to the dictionary it iterates. -/
theorem dlPass_dict (remaining : UrlMap) (dict : UrlMap) (uenv : String → UrlEnv) (fs : FSMap) :
    (dlPass remaining dict uenv fs).1 = dict := by
  induction remaining generalizing fs with
  | nil => rfl
  | cons e rest ih =>
    obtain ⟨u, d⟩ := e
    rw [dlPass]
    dsimp only
    split
    · simpa using ih _
    split
    · simpa using ih _
    split
    · rfl
    split_ifs <;> simpa using ih _

/-- The retry driver never writes to the mapping. -/
theorem dlLoop_map (rc : Nat) (m : UrlMap) (uenv : String → UrlEnv) (fs : FSMap) :
    (dlLoop rc m uenv fs).1 = m := by
  induction rc generalizing m fs with
  | zero =>
    rw [dlLoop]
    split
    · exact dlPass_dict ..
    · exact dlPass_dict ..
  | succ n ih =>
    rw [dlLoop]
    split
    · rw [ih]
      exact dlPass_dict ..
    · exact dlPass_dict ..

/-- Auxiliary: entries whose archive file or stem directory is already present
are all skipped — the pass downloads nothing and is not aborted.  The skip
branches only set `dirExists`, so the presence condition is preserved along
the loop. -/
theorem dlPass_no_download (remaining : UrlMap) (dict : UrlMap) (uenv : String → UrlEnv)
    (fs : FSMap)
    (h : ∀ p ∈ remaining, (fs p.1).fileExists = true ∨ (fs p.1).stemDirExists = true) :
    countDl (dlPass remaining dict uenv fs).2.2.1 = 0
    ∧ (dlPass remaining dict uenv fs).2.2.2 = false := by
  induction remaining generalizing fs with
  | nil => simp [dlPass, countDl]
  | cons e rest ih =>
    obtain ⟨u, d⟩ := e
    have hu := h (u, d) (by simp)
    rcases hfsu : fs u with ⟨de, fe, se, ai⟩
    rw [hfsu] at hu
    have hrest : ∀ p ∈ rest,
        ((setFS fs u ⟨true, fe, se, ai⟩) p.1).fileExists = true
        ∨ ((setFS fs u ⟨true, fe, se, ai⟩) p.1).stemDirExists = true := by
      intro p hp
      by_cases hpu : p.1 = u
      · rw [hpu, setFS_same]
        simpa using hu
      · have hfix : setFS fs u ⟨true, fe, se, ai⟩ p.1 = fs p.1 := by
          simp [setFS, hpu]
        rw [hfix]
        exact h p (List.mem_cons_of_mem _ hp)
    have hmk : countDl (if de = true then [] else [DlEvent.makedirs d]) = 0 := by
      split <;> simp [countDl, isDownloadEv]
    rw [dlPass]
    dsimp only
    rw [hfsu]
    dsimp only
    by_cases hf : fe = true
    · subst hf
      rw [if_pos rfl]
      refine ⟨?_, (ih _ hrest).2⟩
      rw [countDl_append, countDl_append, hmk, (ih _ hrest).1]
      simp [countDl, isDownloadEv]
    · have hf' : fe = false := by simpa using hf
      subst hf'
      have hs : se = true := by simpa using hu
      subst hs
      rw [if_neg (by simp), if_pos rfl]
      refine ⟨?_, (ih _ hrest).2⟩
      rw [countDl_append, countDl_append, hmk, (ih _ hrest).1]
      simp [countDl, isDownloadEv]

/-- Events of `n` consecutive failed attempts on one entry: each `urlretrieve`
call followed by the removal of the partial file. -/
def attemptsTrace : Nat → String → String → List DlEvent
  | 0, _, _ => []
  | n + 1, u, p => DlEvent.download u p :: DlEvent.removeFile p :: attemptsTrace n u p

/-- Auxiliary: a pass over a single clean entry whose attempt raises
`ContentTooShortError` downloads, removes the partial file and aborts. -/
theorem dlPass_single_short (u d : String) (dict : UrlMap) (uenv : String → UrlEnv)
    (fs : FSMap) (i : Nat) (hfs : fs u = ⟨true, false, false, i⟩)
    (hshort : (uenv u).outcome i = DlOutcome.tooShort) :
    dlPass [(u, d)] dict uenv fs =
      (dict, setFS fs u ⟨true, false, false, i + 1⟩,
       [DlEvent.download u (d ++ "/" ++ zipFileName u),
        DlEvent.removeFile (d ++ "/" ++ zipFileName u)], true) := by
  rw [dlPass]
  dsimp only
  rw [hfs]
  dsimp only
  rw [if_neg (by simp), if_neg (by simp), hshort]
  dsimp only [urlretrieve]
  simp

/-- Auxiliary: a pass over a single clean entry whose attempt succeeds makes
exactly one download and does not abort. -/
theorem dlPass_single_ok (u d : String) (dict : UrlMap) (uenv : String → UrlEnv)
    (fs : FSMap) (i : Nat) (hfs : fs u = ⟨true, false, false, i⟩)
    (hok : (uenv u).outcome i = DlOutcome.ok) :
    countDl (dlPass [(u, d)] dict uenv fs).2.2.1 = 1
    ∧ (dlPass [(u, d)] dict uenv fs).2.2.2 = false := by
  rw [dlPass]
  dsimp only
  rw [hfs]
  dsimp only
  rw [if_neg (by simp), if_neg (by simp), hok]
  dsimp only [urlretrieve]
  split_ifs <;> simp [dlPass, countDl, isDownloadEv]

/-- Auxiliary: with the network failing short on the first `k` attempts of one
entry and succeeding afterwards, a run with budget `R` starting at attempt `i`
makes `min (k - i + 1) (R + 1)` download calls. -/
theorem dlLoop_single_count (k : Nat) (u d : String) (uenv : String → UrlEnv)
    (hout : (uenv u).outcome = fun j => if j < k then DlOutcome.tooShort else DlOutcome.ok) :
    ∀ (R i : Nat) (fs : FSMap), fs u = ⟨true, false, false, i⟩ →
      countDl (dlLoop R [(u, d)] uenv fs).2.2 = min (k - i + 1) (R + 1) := by
  intro R
  induction R with
  | zero =>
    intro i fs hfs
    by_cases hik : i < k
    · have hshort : (uenv u).outcome i = DlOutcome.tooShort := by
        rw [hout]
        simp [hik]
      rw [dlLoop.eq_def]
      dsimp only
      rw [dlPass_single_short u d [(u, d)] uenv fs i hfs hshort]
      dsimp only
      simp only [if_true]
      simp [countDl, isDownloadEv, Nat.min_def]
    · have hok : (uenv u).outcome i = DlOutcome.ok := by
        rw [hout]
        simp [hik]
      have h1 := dlPass_single_ok u d [(u, d)] uenv fs i hfs hok
      rw [dlLoop.eq_def]
      dsimp only
      simp only [h1.2, Bool.false_eq_true, if_false]
      rw [h1.1]
      rw [Nat.min_def]
      split_ifs <;> omega
  | succ n ih =>
    intro i fs hfs
    by_cases hik : i < k
    · have hshort : (uenv u).outcome i = DlOutcome.tooShort := by
        rw [hout]
        simp [hik]
      rw [dlLoop.eq_def]
      dsimp only
      rw [dlPass_single_short u d [(u, d)] uenv fs i hfs hshort]
      dsimp only
      simp only [if_true]
      rw [countDl_append, ih (i + 1) _ (setFS_same ..)]
      have hc : countDl [DlEvent.download u (d ++ "/" ++ zipFileName u),
          DlEvent.removeFile (d ++ "/" ++ zipFileName u)] = 1 := by
        simp [countDl, isDownloadEv]
      rw [hc]
      simp only [Nat.min_def]
      split_ifs <;> omega
    · have hok : (uenv u).outcome i = DlOutcome.ok := by
        rw [hout]
        simp [hik]
      have h1 := dlPass_single_ok u d [(u, d)] uenv fs i hfs hok
      rw [dlLoop.eq_def]
      dsimp only
      simp only [h1.2, Bool.false_eq_true, if_false]
      rw [h1.1]
      rw [Nat.min_def]
      split_ifs <;> omega

/-- Auxiliary: with the network failing short on the first `k` attempts of one
entry, a run whose budget runs out first (`i + R < k`) is exactly `R + 1`
download/remove pairs, ending with the state holding no partial file. -/
theorem dlLoop_single_exhaust (k : Nat) (u d : String) (uenv : String → UrlEnv)
    (hout : (uenv u).outcome = fun j => if j < k then DlOutcome.tooShort else DlOutcome.ok) :
    ∀ (R i : Nat) (fs : FSMap), fs u = ⟨true, false, false, i⟩ → i + R < k →
      dlLoop R [(u, d)] uenv fs =
        ([(u, d)], setFS fs u ⟨true, false, false, i + R + 1⟩,
         attemptsTrace (R + 1) u (d ++ "/" ++ zipFileName u)) := by
  intro R
  induction R with
  | zero =>
    intro i fs hfs hcnt
    have hik : i < k := by omega
    have hshort : (uenv u).outcome i = DlOutcome.tooShort := by
      rw [hout]
      simp [hik]
    rw [dlLoop.eq_def]
    dsimp only
    rw [dlPass_single_short u d [(u, d)] uenv fs i hfs hshort]
    dsimp only
    simp only [if_true]
    simp [attemptsTrace]
  | succ n ih =>
    intro i fs hfs hcnt
    have hik : i < k := by omega
    have hshort : (uenv u).outcome i = DlOutcome.tooShort := by
      rw [hout]
      simp [hik]
    rw [dlLoop.eq_def]
    dsimp only
    rw [dlPass_single_short u d [(u, d)] uenv fs i hfs hshort]
    dsimp only
    simp only [if_true]
    rw [ih (i + 1) _ (setFS_same ..) (by omega), setFS_setFS]
    have harith : i + 1 + n + 1 = i + (n + 1) + 1 := by omega
    rw [harith]
    simp [attemptsTrace]

/-! ## Claims -/

/-- C1: If any VCS command (clone, fetch, checkout, or fast-forward pull)
invoked for a git manifest entry exits non-zero — equivalently, by the
structure of `processGitEntry`, the entry's processing returns `False` — then
synchronization returns failure immediately: the loop's result is exactly the
failing entry's commands and `False`, independent of the remaining entries
(no synchronization step is attempted for them), and the driver performs no
archive download afterwards (`none`) and returns `False`. -/
theorem claim_C1_fail_fast (git_repo : String) (v : GitVal) (genv : String → GitEnv)
    (update : Bool) (rest dict : GitMap)
    (hfail : (processGitEntry git_repo v (genv git_repo) update).2 = false) :
    gitLoop ((git_repo, v) :: rest) dict genv update =
      (dict, (processGitEntry git_repo v (genv git_repo) update).1, false)
    ∧ update_git_dependencies ((git_repo, v) :: rest) genv update =
      ((git_repo, v) :: rest, (processGitEntry git_repo v (genv git_repo) update).1, false)
    ∧ ∀ (plat : Platform) (winm linuxm : UrlMap) (uenv : String → UrlEnv) (fs : FSMap),
        do_fetch_dependencies plat ((git_repo, v) :: rest) genv update winm linuxm uenv fs =
          (⟨["git", "--version"], none⟩ ::
             (processGitEntry git_repo v (genv git_repo) update).1, none, false) := by
  have hloop : ∀ d : GitMap, gitLoop ((git_repo, v) :: rest) d genv update =
      (d, (processGitEntry git_repo v (genv git_repo) update).1, false) := by
    intro d
    rw [gitLoop]
    simp [hfail]
  refine ⟨hloop dict, hloop _, ?_⟩
  intro plat winm linuxm uenv fs
  unfold do_fetch_dependencies update_git_dependencies
  rw [hloop]
  simp

/-- C1 witness: a concrete entry whose clone exits with code 1; the loop stops
at it, a second entry is never processed, and the driver downloads nothing. -/
theorem claim_C1_fail_fast_witness :
    do_fetch_dependencies Platform.win32
        [("repoA", ⟨"destA", "v1", true⟩), ("repoB", ⟨"destB", "v2", true⟩)]
        (fun _ => ⟨false, 1, 0, 0, 0⟩) true url_mapping_win
        url_mapping_linux (fun _ => ⟨fun _ => .ok, true⟩) (fun _ => ⟨true, true, false, 0⟩) =
      (⟨["git", "--version"], none⟩ ::
         (processGitEntry "repoA" ⟨"destA", "v1", true⟩ ((fun _ => ⟨false, 1, 0, 0, 0⟩ :
            String → GitEnv) "repoA") true).1, none, false) :=
  (claim_C1_fail_fast "repoA" ⟨"destA", "v1", true⟩ (fun _ => ⟨false, 1, 0, 0, 0⟩) true
      [("repoB", ⟨"destB", "v2", true⟩)] [] (by decide)).2.2
    Platform.win32 url_mapping_win url_mapping_linux
    (fun _ => ⟨fun _ => .ok, true⟩) (fun _ => ⟨true, true, false, 0⟩)

/-- C2: For a git manifest entry with `shallow = true` whose destination does
not exist and whose clone succeeds, the entry issues exactly one clone — a
depth-1 clone with the pinned revision passed as the `--branch` argument — and
then still performs exactly one checkout of the pinned revision in the cloned
directory; the synchronizer's trace begins with those two commands. -/
theorem claim_C2_shallow_clone (git_repo : String) (v : GitVal) (genv : String → GitEnv)
    (update : Bool) (rest dict : GitMap)
    (hsh : v.shallow = true) (hdir : (genv git_repo).dirExists = false)
    (hclone : (genv git_repo).cloneRet = 0) :
    (∃ t b, processGitEntry git_repo v (genv git_repo) update =
        (⟨["git", "clone", "--depth", "1", "--branch", v.commit, git_repo, v.dest], none⟩ ::
         ⟨["git", "checkout", v.commit], some v.dest⟩ :: t, b))
    ∧ countCmd isCloneCmd (processGitEntry git_repo v (genv git_repo) update).1 = 1
    ∧ countCmd isCheckoutCmd (processGitEntry git_repo v (genv git_repo) update).1 = 1
    ∧ ∃ t, (gitLoop ((git_repo, v) :: rest) dict genv update).2.1 =
        ⟨["git", "clone", "--depth", "1", "--branch", v.commit, git_repo, v.dest], none⟩ ::
        ⟨["git", "checkout", v.commit], some v.dest⟩ :: t := by
  have hmain : ∃ t b, processGitEntry git_repo v (genv git_repo) update =
      (⟨["git", "clone", "--depth", "1", "--branch", v.commit, git_repo, v.dest], none⟩ ::
       ⟨["git", "checkout", v.commit], some v.dest⟩ :: t, b) ∧ countCmd isCloneCmd t = 0 ∧
       countCmd isCheckoutCmd t = 0 := by
    unfold processGitEntry
    simp only [hsh, hdir, hclone]
    by_cases hco : (genv git_repo).checkoutRet = 0 <;>
      by_cases hpu : (genv git_repo).pullRet = 0 <;>
      simp [hco, hpu, countCmd, isCloneCmd, isCheckoutCmd]
  obtain ⟨t, b, hpe, hct, hcc⟩ := hmain
  have e1 : isCloneCmd ⟨["git", "clone", "--depth", "1", "--branch", v.commit, git_repo, v.dest],
      none⟩ = true := rfl
  have e2 : isCloneCmd ⟨["git", "checkout", v.commit], some v.dest⟩ = false := rfl
  have e3 : isCheckoutCmd ⟨["git", "clone", "--depth", "1", "--branch", v.commit, git_repo,
      v.dest], none⟩ = false := rfl
  have e4 : isCheckoutCmd ⟨["git", "checkout", v.commit], some v.dest⟩ = true := rfl
  refine ⟨⟨t, b, hpe⟩, ?_, ?_, ?_⟩
  · rw [hpe]
    rw [countCmd_cons, countCmd_cons, hct, e1, e2]
    simp
  · rw [hpe]
    rw [countCmd_cons, countCmd_cons, hcc, e3, e4]
    simp
  · rw [gitLoop]
    dsimp only
    rw [hpe]
    by_cases hb : b = true
    · subst hb
      simp
    · simp at hb
      subst hb
      simp

/-- C2 witness: a concrete shallow entry with a nonexistent destination; the
entry issues exactly one clone and one checkout. -/
theorem claim_C2_shallow_clone_witness :
    countCmd isCloneCmd (processGitEntry "repoA" ⟨"destA", "v1.0.0", true⟩
        ((fun _ => ⟨false, 0, 0, 0, 0⟩ : String → GitEnv) "repoA") true).1 = 1
    ∧ countCmd isCheckoutCmd (processGitEntry "repoA" ⟨"destA", "v1.0.0", true⟩
        ((fun _ => ⟨false, 0, 0, 0, 0⟩ : String → GitEnv) "repoA") true).1 = 1 :=
  ⟨(claim_C2_shallow_clone "repoA" ⟨"destA", "v1.0.0", true⟩ (fun _ => ⟨false, 0, 0, 0, 0⟩)
      true [] [] rfl rfl rfl).2.1,
   (claim_C2_shallow_clone "repoA" ⟨"destA", "v1.0.0", true⟩ (fun _ => ⟨false, 0, 0, 0, 0⟩)
      true [] [] rfl rfl rfl).2.2.1⟩

/-- C3: For a git manifest entry whose destination exists, with
`forceUpdate = true` and fetch and checkout succeeding, the entry's command
trace is exactly one fetch of all tags/refs with force-overwrite, followed by
exactly one checkout of the pinned revision, followed by exactly one
fast-forward-only pull attempt at that revision (issued whatever its exit
code); when the pull also succeeds the loop continues to the remaining
entries with exactly these three commands prepended. -/
theorem claim_C3_update_fetch_checkout_pull (git_repo : String) (v : GitVal)
    (genv : String → GitEnv) (rest dict : GitMap)
    (hdir : (genv git_repo).dirExists = true)
    (hfetch : (genv git_repo).fetchRet = 0) (hco : (genv git_repo).checkoutRet = 0) :
    (processGitEntry git_repo v (genv git_repo) true).1 =
      [⟨["git", "fetch", "--tags", "-f"], some v.dest⟩,
       ⟨["git", "checkout", v.commit], some v.dest⟩,
       ⟨["git", "pull", "--ff-only", "origin", v.commit], some v.dest⟩]
    ∧ ((genv git_repo).pullRet = 0 →
        gitLoop ((git_repo, v) :: rest) dict genv true =
          ((gitLoop rest dict genv true).1,
           ⟨["git", "fetch", "--tags", "-f"], some v.dest⟩ ::
           ⟨["git", "checkout", v.commit], some v.dest⟩ ::
           ⟨["git", "pull", "--ff-only", "origin", v.commit], some v.dest⟩ ::
             (gitLoop rest dict genv true).2.1,
           (gitLoop rest dict genv true).2.2)) := by
  by_cases hpu : (genv git_repo).pullRet = 0
  · have hpe : processGitEntry git_repo v (genv git_repo) true =
        ([⟨["git", "fetch", "--tags", "-f"], some v.dest⟩,
          ⟨["git", "checkout", v.commit], some v.dest⟩,
          ⟨["git", "pull", "--ff-only", "origin", v.commit], some v.dest⟩], true) := by
      unfold processGitEntry
      simp [hdir, hfetch, hco, hpu]
    refine ⟨by rw [hpe], fun _ => ?_⟩
    rw [gitLoop]
    dsimp only
    rw [hpe]
    simp
  · have hpe : processGitEntry git_repo v (genv git_repo) true =
        ([⟨["git", "fetch", "--tags", "-f"], some v.dest⟩,
          ⟨["git", "checkout", v.commit], some v.dest⟩,
          ⟨["git", "pull", "--ff-only", "origin", v.commit], some v.dest⟩], false) := by
      unfold processGitEntry
      simp [hdir, hfetch, hco, hpu]
    exact ⟨by rw [hpe], fun h => absurd h hpu⟩

/-- C3 witness: a concrete existing entry with `forceUpdate = true` and all
commands succeeding: exactly fetch, checkout, pull. -/
theorem claim_C3_update_fetch_checkout_pull_witness :
    (processGitEntry "repoA" ⟨"destA", "v1.0.0", true⟩
        ((fun _ => ⟨true, 0, 0, 0, 0⟩ : String → GitEnv) "repoA") true).1 =
      [⟨["git", "fetch", "--tags", "-f"], some "destA"⟩,
       ⟨["git", "checkout", "v1.0.0"], some "destA"⟩,
       ⟨["git", "pull", "--ff-only", "origin", "v1.0.0"], some "destA"⟩] :=
  (claim_C3_update_fetch_checkout_pull "repoA" ⟨"destA", "v1.0.0", true⟩
      (fun _ => ⟨true, 0, 0, 0, 0⟩) [] [] rfl rfl rfl).1

/-- C4: For a git manifest entry whose destination exists, with
`forceUpdate = false`, the entry spawns no VCS command at all (empty command
trace, success) and the loop's behaviour on the whole list is literally that
on the remaining entries — the entry contributes nothing, so the
destination's filesystem state is untouched. -/
theorem claim_C4_skip_no_ops (git_repo : String) (v : GitVal) (genv : String → GitEnv)
    (rest dict : GitMap) (hdir : (genv git_repo).dirExists = true) :
    processGitEntry git_repo v (genv git_repo) false = ([], true)
    ∧ gitLoop ((git_repo, v) :: rest) dict genv false = gitLoop rest dict genv false := by
  have hpe : processGitEntry git_repo v (genv git_repo) false = ([], true) := by
    unfold processGitEntry
    simp [hdir]
  refine ⟨hpe, ?_⟩
  rw [gitLoop]
  dsimp only
  rw [hpe]
  simp

/-- C4 witness: a concrete existing entry with `forceUpdate = false` performs
no VCS operation. -/
theorem claim_C4_skip_no_ops_witness :
    processGitEntry "repoA" ⟨"destA", "v1.0.0", true⟩
        ((fun _ => ⟨true, 0, 0, 0, 0⟩ : String → GitEnv) "repoA") false = ([], true)
    ∧ gitLoop [("repoA", ⟨"destA", "v1.0.0", true⟩), ("repoB", ⟨"destB", "v2", false⟩)]
        [] (fun _ => ⟨true, 0, 0, 0, 0⟩) false =
      gitLoop [("repoB", ⟨"destB", "v2", false⟩)] [] (fun _ => ⟨true, 0, 0, 0, 0⟩) false :=
  ⟨(claim_C4_skip_no_ops "repoA" ⟨"destA", "v1.0.0", true⟩ (fun _ => ⟨true, 0, 0, 0, 0⟩)
      [("repoB", ⟨"destB", "v2", false⟩)] [] rfl).1,
   (claim_C4_skip_no_ops "repoA" ⟨"destA", "v1.0.0", true⟩ (fun _ => ⟨true, 0, 0, 0, 0⟩)
      [("repoB", ⟨"destB", "v2", false⟩)] [] rfl).2⟩

/-- C5: An archive entry whose destination already contains the file named
after the URL's final path segment (fragment/query stripped), or a directory
named after the archive's stem, is skipped: the loop records only the skip
check and moves to the next entry, and — in particular — when every entry's
archive file or stem directory is already present (a repeat invocation), the
whole fetch performs zero download calls. -/
theorem claim_C5_skip_when_present (rc : Nat) (upd : Bool) (u d : String)
    (rest dict m : UrlMap) (uenv : String → UrlEnv) (fs : FSMap)
    (hskip : (fs u).fileExists = true ∨ (fs u).stemDirExists = true) :
    dlPass ((u, d) :: rest) dict uenv fs =
      ((dlPass rest dict uenv (setFS fs u { fs u with dirExists := true })).1,
       (dlPass rest dict uenv (setFS fs u { fs u with dirExists := true })).2.1,
       ((if (fs u).dirExists then [] else [DlEvent.makedirs d]) ++
          [if (fs u).fileExists then DlEvent.skipFile (d ++ "/" ++ zipFileName u)
           else DlEvent.skipDir (d ++ "/" ++ stemOf (zipFileName u))]) ++
         (dlPass rest dict uenv (setFS fs u { fs u with dirExists := true })).2.2.1,
       (dlPass rest dict uenv (setFS fs u { fs u with dirExists := true })).2.2.2)
    ∧ ((∀ p ∈ m, (fs p.1).fileExists = true ∨ (fs p.1).stemDirExists = true) →
        countDl (download_url_dependencies m upd rc uenv fs).2.2 = 0) := by
  constructor
  · rcases hfsu : fs u with ⟨de, fe, se, ai⟩
    rw [hfsu] at hskip
    rw [dlPass]
    dsimp only
    rw [hfsu]
    dsimp only
    by_cases hf : fe = true
    · subst hf
      rw [if_pos rfl]
      simp
    · have hf' : fe = false := by simpa using hf
      subst hf'
      have hs : se = true := by simpa using hskip
      subst hs
      rw [if_neg (by simp), if_pos rfl]
      simp
  · intro hall
    have hnd := dlPass_no_download m m uenv fs hall
    unfold download_url_dependencies
    rw [dlLoop.eq_def]
    dsimp only
    simp only [hnd.2, Bool.false_eq_true, if_false]
    exact hnd.1

/-- C5 witness: the spec's example — archive entry
`https://host/pkg-2.3.zip → ../external/pkg` with `pkg-2.3.zip` already
present at the destination: a repeat invocation performs zero download
calls. -/
theorem claim_C5_skip_when_present_witness :
    countDl (download_url_dependencies [("https://host/pkg-2.3.zip", "../external/pkg")] true 10
      (fun _ => ⟨fun _ => DlOutcome.ok, true⟩) (fun _ => ⟨true, true, false, 0⟩)).2.2 = 0 :=
  (claim_C5_skip_when_present 10 true "https://host/pkg-2.3.zip" "../external/pkg" [] []
      [("https://host/pkg-2.3.zip", "../external/pkg")]
      (fun _ => ⟨fun _ => DlOutcome.ok, true⟩) (fun _ => ⟨true, true, false, 0⟩)
      (Or.inl rfl)).2 (by decide)

/-- C7: Once a short-content error occurs (and the budget is positive, so the
recursive retry path is taken), the original call's complete result is the
events of the aborted pass followed by exactly the retry invocation's result —
nothing is appended afterwards, and this holds for every environment, i.e.
whatever the retried attempt goes on to do (succeed or fail), the original
call returns with no success/failure outcome propagated from the retry.  The
aborted pass itself deletes the partial file and ignores the remaining
entries of the current iteration. -/
theorem claim_C7_retry_outcome_discarded (rc : Nat) (u d : String) (rest : UrlMap)
    (uenv : String → UrlEnv) (fs : FSMap)
    (hfile : (fs u).fileExists = false) (hstem : (fs u).stemDirExists = false)
    (hshort : (uenv u).outcome (fs u).attemptIdx = DlOutcome.tooShort) :
    dlLoop (rc + 1) ((u, d) :: rest) uenv fs =
      ((dlLoop rc ((u, d) :: rest) uenv
          (setFS fs u { fs u with dirExists := true, attemptIdx := (fs u).attemptIdx + 1 })).1,
       (dlLoop rc ((u, d) :: rest) uenv
          (setFS fs u { fs u with dirExists := true, attemptIdx := (fs u).attemptIdx + 1 })).2.1,
       ((if (fs u).dirExists then [] else [DlEvent.makedirs d]) ++
          [DlEvent.download u (d ++ "/" ++ zipFileName u),
           DlEvent.removeFile (d ++ "/" ++ zipFileName u)]) ++
         (dlLoop rc ((u, d) :: rest) uenv
            (setFS fs u { fs u with dirExists := true, attemptIdx := (fs u).attemptIdx + 1 })).2.2)
    ∧ ∀ dict : UrlMap, dlPass ((u, d) :: rest) dict uenv fs =
        (dict,
         setFS fs u { fs u with dirExists := true, attemptIdx := (fs u).attemptIdx + 1 },
         (if (fs u).dirExists then [] else [DlEvent.makedirs d]) ++
           [DlEvent.download u (d ++ "/" ++ zipFileName u),
            DlEvent.removeFile (d ++ "/" ++ zipFileName u)], true) := by
  have hpass : ∀ dict : UrlMap, dlPass ((u, d) :: rest) dict uenv fs =
      (dict,
       setFS fs u { fs u with dirExists := true, attemptIdx := (fs u).attemptIdx + 1 },
       (if (fs u).dirExists then [] else [DlEvent.makedirs d]) ++
         [DlEvent.download u (d ++ "/" ++ zipFileName u),
          DlEvent.removeFile (d ++ "/" ++ zipFileName u)], true) := by
    intro dict
    rcases hfsu : fs u with ⟨de, fe, se, ai⟩
    rw [hfsu] at hfile hstem hshort
    dsimp only at hfile hstem hshort
    subst hfile
    subst hstem
    rw [dlPass]
    dsimp only
    rw [hfsu]
    dsimp only
    rw [if_neg (by simp), if_neg (by simp), hshort]
    simp [urlretrieve]
  refine ⟨?_, hpass⟩
  rw [dlLoop.eq_def]
  dsimp only
  rw [hpass]
  simp

/-- C7 witness: a concrete short-content failure — the aborted pass removes
the partial file, requests the retry and drops the remaining entry. -/
theorem claim_C7_retry_outcome_discarded_witness :
    dlPass [("https://host/pkg-2.3.zip", "dst"), ("https://host/other.zip", "dst2")] []
      (fun _ => ⟨fun _ => DlOutcome.tooShort, true⟩) (fun _ => ⟨true, false, false, 0⟩) =
      ([], setFS (fun _ => ⟨true, false, false, 0⟩) "https://host/pkg-2.3.zip"
             { (fun (_ : String) => (⟨true, false, false, 0⟩ : UrlFS)) "https://host/pkg-2.3.zip"
                 with
               dirExists := true
               attemptIdx := ((fun (_ : String) => (⟨true, false, false, 0⟩ : UrlFS))
                 "https://host/pkg-2.3.zip").attemptIdx + 1 },
       (if ((fun (_ : String) => (⟨true, false, false, 0⟩ : UrlFS))
             "https://host/pkg-2.3.zip").dirExists then []
        else [DlEvent.makedirs "dst"]) ++
         [DlEvent.download "https://host/pkg-2.3.zip"
            ("dst" ++ "/" ++ zipFileName "https://host/pkg-2.3.zip"),
          DlEvent.removeFile ("dst" ++ "/" ++ zipFileName "https://host/pkg-2.3.zip")], true) :=
  (claim_C7_retry_outcome_discarded 9 "https://host/pkg-2.3.zip" "dst"
      [("https://host/other.zip", "dst2")]
      (fun _ => ⟨fun _ => DlOutcome.tooShort, true⟩) (fun _ => ⟨true, false, false, 0⟩)
      rfl rfl rfl).2 []

/-- C8: After a successful download the fetcher dispatches on the file
extension — `.zip` is extracted with zip extraction, `.tgz`/`.gz` with tar
extraction — into the destination directory, and then deletes the downloaded
archive file (the entry's events are download, extract, remove, and the
archive file is absent from the resulting state). -/
theorem claim_C8_extension_dispatch (u d : String) (rest dict : UrlMap)
    (uenv : String → UrlEnv) (fs : FSMap)
    (hfile : (fs u).fileExists = false) (hstem : (fs u).stemDirExists = false)
    (hok : (uenv u).outcome (fs u).attemptIdx = DlOutcome.ok) :
    (extOf (zipFileName u) = ".zip" →
      dlPass ((u, d) :: rest) dict uenv fs =
        ((dlPass rest dict uenv (setFS fs u
            { fs u with
              dirExists := true
              fileExists := false
              stemDirExists := (uenv u).extractMakesStemDir
              attemptIdx := (fs u).attemptIdx + 1 })).1,
         (dlPass rest dict uenv (setFS fs u
            { fs u with
              dirExists := true
              fileExists := false
              stemDirExists := (uenv u).extractMakesStemDir
              attemptIdx := (fs u).attemptIdx + 1 })).2.1,
         ((if (fs u).dirExists then [] else [DlEvent.makedirs d]) ++
            [DlEvent.download u (d ++ "/" ++ zipFileName u),
             DlEvent.extractZip (d ++ "/" ++ zipFileName u) d,
             DlEvent.removeFile (d ++ "/" ++ zipFileName u)]) ++
           (dlPass rest dict uenv (setFS fs u
              { fs u with
                dirExists := true
                fileExists := false
                stemDirExists := (uenv u).extractMakesStemDir
                attemptIdx := (fs u).attemptIdx + 1 })).2.2.1,
         (dlPass rest dict uenv (setFS fs u
            { fs u with
              dirExists := true
              fileExists := false
              stemDirExists := (uenv u).extractMakesStemDir
              attemptIdx := (fs u).attemptIdx + 1 })).2.2.2))
    ∧ (extOf (zipFileName u) = ".tgz" ∨ extOf (zipFileName u) = ".gz" →
      dlPass ((u, d) :: rest) dict uenv fs =
        ((dlPass rest dict uenv (setFS fs u
            { fs u with
              dirExists := true
              fileExists := false
              stemDirExists := (uenv u).extractMakesStemDir
              attemptIdx := (fs u).attemptIdx + 1 })).1,
         (dlPass rest dict uenv (setFS fs u
            { fs u with
              dirExists := true
              fileExists := false
              stemDirExists := (uenv u).extractMakesStemDir
              attemptIdx := (fs u).attemptIdx + 1 })).2.1,
         ((if (fs u).dirExists then [] else [DlEvent.makedirs d]) ++
            [DlEvent.download u (d ++ "/" ++ zipFileName u),
             DlEvent.extractTar (d ++ "/" ++ zipFileName u) d,
             DlEvent.removeFile (d ++ "/" ++ zipFileName u)]) ++
           (dlPass rest dict uenv (setFS fs u
              { fs u with
                dirExists := true
                fileExists := false
                stemDirExists := (uenv u).extractMakesStemDir
                attemptIdx := (fs u).attemptIdx + 1 })).2.2.1,
         (dlPass rest dict uenv (setFS fs u
            { fs u with
              dirExists := true
              fileExists := false
              stemDirExists := (uenv u).extractMakesStemDir
              attemptIdx := (fs u).attemptIdx + 1 })).2.2.2)) := by
  constructor
  · intro hz
    rcases hfsu : fs u with ⟨de, fe, se, ai⟩
    rw [hfsu] at hfile hstem hok
    dsimp only at hfile hstem hok
    subst hfile
    subst hstem
    rw [dlPass]
    dsimp only
    rw [hfsu]
    dsimp only
    rw [if_neg (by simp), if_neg (by simp), hok]
    dsimp only [urlretrieve]
    rw [if_pos hz]
    simp
  · intro hz
    rcases hfsu : fs u with ⟨de, fe, se, ai⟩
    rw [hfsu] at hfile hstem hok
    dsimp only at hfile hstem hok
    subst hfile
    subst hstem
    rw [dlPass]
    dsimp only
    rw [hfsu]
    dsimp only
    rw [if_neg (by simp), if_neg (by simp), hok]
    dsimp only [urlretrieve]
    rw [if_neg (by rcases hz with h | h <;> rw [h] <;> decide), if_pos hz]
    simp

/-- C8 witness: a `.zip` URL is zip-extracted and the archive removed; a
`.tar.gz` URL is tar-extracted and the archive removed. -/
theorem claim_C8_extension_dispatch_witness :
    dlPass [("https://host/pkg-2.3.zip", "dst")] []
        (fun _ => ⟨fun _ => DlOutcome.ok, true⟩) (fun _ => ⟨true, false, false, 0⟩) =
      ([], setFS (fun _ => ⟨true, false, false, 0⟩) "https://host/pkg-2.3.zip"
             ⟨true, false, true, 1⟩,
       [DlEvent.download "https://host/pkg-2.3.zip" "dst/pkg-2.3.zip",
        DlEvent.extractZip "dst/pkg-2.3.zip" "dst",
        DlEvent.removeFile "dst/pkg-2.3.zip"], false)
    ∧ dlPass [("https://host/a.tar.gz", "dst")] []
        (fun _ => ⟨fun _ => DlOutcome.ok, true⟩) (fun _ => ⟨true, false, false, 0⟩) =
      ([], setFS (fun _ => ⟨true, false, false, 0⟩) "https://host/a.tar.gz"
             ⟨true, false, true, 1⟩,
       [DlEvent.download "https://host/a.tar.gz" "dst/a.tar.gz",
        DlEvent.extractTar "dst/a.tar.gz" "dst",
        DlEvent.removeFile "dst/a.tar.gz"], false) := by
  constructor
  · rw [(claim_C8_extension_dispatch "https://host/pkg-2.3.zip" "dst" [] []
        (fun _ => ⟨fun _ => DlOutcome.ok, true⟩) (fun _ => ⟨true, false, false, 0⟩)
        rfl rfl rfl).1 (by decide)]
    rfl
  · rw [(claim_C8_extension_dispatch "https://host/a.tar.gz" "dst" [] []
        (fun _ => ⟨fun _ => DlOutcome.ok, true⟩) (fun _ => ⟨true, false, false, 0⟩)
        rfl rfl rfl).2 (Or.inr (by decide))]
    rfl

/-- C10: After a successful download of a file whose extension is neither
`.zip`, `.tgz` nor `.gz`, no extraction happens and the file is not deleted:
the entry's only events are the directory check and the download, the file
remains present in the resulting state, and the loop continues with the next
entry. -/
theorem claim_C10_unknown_extension (u d : String) (rest dict : UrlMap)
    (uenv : String → UrlEnv) (fs : FSMap)
    (hfile : (fs u).fileExists = false) (hstem : (fs u).stemDirExists = false)
    (hok : (uenv u).outcome (fs u).attemptIdx = DlOutcome.ok)
    (hz : extOf (zipFileName u) ≠ ".zip") (ht : extOf (zipFileName u) ≠ ".tgz")
    (hg : extOf (zipFileName u) ≠ ".gz") :
    dlPass ((u, d) :: rest) dict uenv fs =
      ((dlPass rest dict uenv (setFS fs u
          { fs u with
            dirExists := true
            fileExists := true
            attemptIdx := (fs u).attemptIdx + 1 })).1,
       (dlPass rest dict uenv (setFS fs u
          { fs u with
            dirExists := true
            fileExists := true
            attemptIdx := (fs u).attemptIdx + 1 })).2.1,
       ((if (fs u).dirExists then [] else [DlEvent.makedirs d]) ++
          [DlEvent.download u (d ++ "/" ++ zipFileName u)]) ++
         (dlPass rest dict uenv (setFS fs u
            { fs u with
              dirExists := true
              fileExists := true
              attemptIdx := (fs u).attemptIdx + 1 })).2.2.1,
       (dlPass rest dict uenv (setFS fs u
          { fs u with
            dirExists := true
            fileExists := true
            attemptIdx := (fs u).attemptIdx + 1 })).2.2.2)
    ∧ (setFS fs u
        { fs u with
          dirExists := true
          fileExists := true
          attemptIdx := (fs u).attemptIdx + 1 } u).fileExists = true := by
  constructor
  · rcases hfsu : fs u with ⟨de, fe, se, ai⟩
    rw [hfsu] at hfile hstem hok
    dsimp only at hfile hstem hok
    subst hfile
    subst hstem
    rw [dlPass]
    dsimp only
    rw [hfsu]
    dsimp only
    rw [if_neg (by simp), if_neg (by simp), hok]
    dsimp only [urlretrieve]
    rw [if_neg hz, if_neg (fun h => h.elim ht hg)]
  · rw [setFS_same]

/-- C10 witness: a `.bin` URL — downloaded, nothing extracted, the file kept. -/
theorem claim_C10_unknown_extension_witness :
    dlPass [("https://host/data.bin", "dst")] []
        (fun _ => ⟨fun _ => DlOutcome.ok, true⟩) (fun _ => ⟨true, false, false, 0⟩) =
      ([], setFS (fun _ => ⟨true, false, false, 0⟩) "https://host/data.bin"
             ⟨true, true, false, 1⟩,
       [DlEvent.download "https://host/data.bin" "dst/data.bin"], false)
    ∧ (setFS (fun _ => ⟨true, false, false, 0⟩) "https://host/data.bin"
         ⟨true, true, false, 1⟩ "https://host/data.bin").fileExists = true := by
  constructor
  · rw [(claim_C10_unknown_extension "https://host/data.bin" "dst" [] []
        (fun _ => ⟨fun _ => DlOutcome.ok, true⟩) (fun _ => ⟨true, false, false, 0⟩)
        rfl rfl rfl (by decide) (by decide) (by decide)).1]
    rfl
  · rw [setFS_same]

/-- C6: With retry budget `retries`, the archive fetch tolerates up to
exactly `retries` consecutive short-content failures — with the network
failing short on the first `k` attempts of an entry, the number of download
calls is `min (k + 1) (retries + 1)`: for `k ≤ retries` the `k` failures are
each followed by a re-attempt and attempt `k + 1` succeeds, while for
`k > retries` the run is exactly `retries + 1` download/remove pairs — the
failure on attempt `retries + 1` (budget zero) still deletes the partial file
but is retried no further, and nothing else happens (silent exhaustion). -/
theorem claim_C6_retry_budget (k retries : Nat) (upd : Bool) (u d : String)
    (uenv : String → UrlEnv) (fs : FSMap)
    (hout : (uenv u).outcome = fun j => if j < k then DlOutcome.tooShort else DlOutcome.ok)
    (hfs : fs u = ⟨true, false, false, 0⟩) :
    countDl (download_url_dependencies [(u, d)] upd retries uenv fs).2.2 =
      min (k + 1) (retries + 1)
    ∧ (retries < k →
        download_url_dependencies [(u, d)] upd retries uenv fs =
          ([(u, d)], setFS fs u ⟨true, false, false, retries + 1⟩,
           attemptsTrace (retries + 1) u (d ++ "/" ++ zipFileName u))) := by
  constructor
  · have h := dlLoop_single_count k u d uenv hout retries 0 fs hfs
    simpa using h
  · intro hRk
    have h := dlLoop_single_exhaust k u d uenv hout retries 0 fs hfs (by omega)
    simpa using h

/-- C6 witness: two consecutive short-content failures against budget 1 —
exactly two download attempts happen (`min (2+1) (1+1) = 2`), each deleting
the partial file, and the second failure (budget zero) is not retried. -/
theorem claim_C6_retry_budget_witness :
    countDl (download_url_dependencies [("https://host/pkg-2.3.zip", "dst")] true 1
        (fun _ => ⟨fun j => if j < 2 then DlOutcome.tooShort else DlOutcome.ok, true⟩)
        (fun _ => ⟨true, false, false, 0⟩)).2.2 = min (2 + 1) (1 + 1)
    ∧ (1 < 2 →
        download_url_dependencies [("https://host/pkg-2.3.zip", "dst")] true 1
            (fun _ => ⟨fun j => if j < 2 then DlOutcome.tooShort else DlOutcome.ok, true⟩)
            (fun _ => ⟨true, false, false, 0⟩) =
          ([("https://host/pkg-2.3.zip", "dst")],
           setFS (fun _ => ⟨true, false, false, 0⟩) "https://host/pkg-2.3.zip"
             ⟨true, false, false, 2⟩,
           attemptsTrace 2 "https://host/pkg-2.3.zip"
             ("dst" ++ "/" ++ zipFileName "https://host/pkg-2.3.zip"))) :=
  claim_C6_retry_budget 2 1 true "https://host/pkg-2.3.zip" "dst"
    (fun _ => ⟨fun j => if j < 2 then DlOutcome.tooShort else DlOutcome.ok, true⟩)
    (fun _ => ⟨true, false, false, 0⟩) rfl rfl

/-- C9: The manifest mappings are never mutated at run time: the git
synchronizer and the archive fetcher return the dictionary they were given
unchanged (every key and value as it was), both for arbitrary mappings and for
the concrete `git_mapping`, `url_mapping_win` and `url_mapping_linux` of
dependency_map.py. -/
theorem claim_C9_manifest_immutable (genv : String → GitEnv) (update : Bool) (rc : Nat)
    (uenv : String → UrlEnv) (fs : FSMap) (m : GitMap) (m2 : UrlMap) :
    (update_git_dependencies m genv update).1 = m
    ∧ (download_url_dependencies m2 update rc uenv fs).1 = m2
    ∧ (update_git_dependencies git_mapping genv update).1 = git_mapping
    ∧ (download_url_dependencies url_mapping_win update rc uenv fs).1 = url_mapping_win
    ∧ (download_url_dependencies url_mapping_linux update rc uenv fs).1 = url_mapping_linux :=
  ⟨gitLoop_dict .., dlLoop_map .., gitLoop_dict .., dlLoop_map .., dlLoop_map ..⟩

end FetchDeps
